import Mathlib

/-!
Verification of the central-dump control coordinator (control/app.ts).

The coordinator is an Express server over a shared directory `/data`:
  * agent registry: in-memory array `containerNames`, endpoint
    `GET /server-name/:containerName`;
  * filter compiler: `buildWiresharkFilterFromConfig` turning a config
    object into a Wireshark display-filter string;
  * pipeline: `mergePcaps` (mergecap over every `*.pcap` file in `/data`
    after deleting the stale `merged.pcap`), `pcapToJson` (tshark decode
    with a shell redirect into the JSON file), `filterPcapAndJson`
    (tshark `-Y` filter, or `cp` when the filter string is empty, then a
    decode of the filtered capture; errors are caught and returned as a
    tagged `ko` result);
  * endpoints `GET /stop`, `POST /config`, `GET /cleanConf`.

The filesystem directory is modelled as an association list from file
names to file data; external tools (mergecap, tshark, cp targets) are
oracles collected in `ToolEnv`; JavaScript strings are Lean `String`s
with split/trim/toLowerCase modelled at the `List Char` level so that
the compiler is executable and provable.  `JSON.parse` on output the
decoder itself produced is modelled as the identity (tool-format
correctness is delegated to the external tools).  JavaScript truthiness
of config fields is modelled by treating a missing key and the value
`""` alike (`getTruthy`).
-/

/-! ## JavaScript string primitives -/

/-- Semantics of JavaScript `s.split(sep)` at the character-list level:
`[]` maps to `[[]]`, separators delimit (possibly empty) chunks. -/
def splitOnChar (sep : Char) : List Char → List (List Char)
  | [] => [[]]
  | c :: cs =>
    if c = sep then [] :: splitOnChar sep cs
    else
      match splitOnChar sep cs with
      | [] => [[c]]
      | chunk :: rest => (c :: chunk) :: rest

/-- Semantics of JavaScript `s.trim()`: drop whitespace from both ends. -/
def trimList (l : List Char) : List Char :=
  ((l.dropWhile Char.isWhitespace).reverse.dropWhile Char.isWhitespace).reverse

/-- JavaScript `s.split(c)` on Lean strings. -/
def jsSplit (s : String) (sep : Char) : List String :=
  (splitOnChar sep s.data).map String.mk

/-- JavaScript `s.trim()` on Lean strings. -/
def jsTrim (s : String) : String :=
  String.mk (trimList s.data)

/-- JavaScript `s.toLowerCase()` on Lean strings (ASCII fragment). -/
def jsToLower (s : String) : String :=
  String.mk (s.data.map Char.toLower)

/-- JavaScript `arr.join(sep)`. -/
def joinSep (sep : String) : List String → String
  | [] => ""
  | [x] => x
  | x :: y :: rest => x ++ sep ++ joinSep sep (y :: rest)

/-! ## The filter compiler (`buildWiresharkFilterFromConfig`) -/

/-- A parsed JSON config object: association list of string fields.
JSON objects have no duplicate keys, so lookup order is irrelevant. -/
abbrev FilterConfigMap := List (String × String)

/-- JavaScript property access `config[field]` on the config object. -/
def getVal : FilterConfigMap → String → Option String
  | [], _ => none
  | (k, v) :: rest, field => if k = field then some v else getVal rest field

/-- The truthiness test `config[field]` used by the compiler: a missing
field and an empty-string field are both falsy. -/
def getTruthy (config : FilterConfigMap) (field : String) : Option String :=
  match getVal config field with
  | some v => if v = "" then none else some v
  | none => none

/-- The value pipeline inside `multiFilter`:
`config[field].split(',').map(v => v.trim()).filter(Boolean)`. -/
def splitTrimValues (raw : String) : List String :=
  ((jsSplit raw ',').map jsTrim).filter (fun v => v ≠ "")

/-- Source `multiFilter`: zero surviving values means the field is
absent; otherwise the per-value predicates are joined with `' or '`. -/
def multiFilter (config : FilterConfigMap) (field : String)
    (cb : String → String) : Option String :=
  match getTruthy config field with
  | none => none
  | some raw =>
    let values := splitTrimValues raw
    if values = [] then none
    else some (joinSep " or " (values.map cb))

/-- Source `buildWiresharkFilterFromConfig`: pushes one parenthesised
sub-expression per populated field, in the fixed source order, and
joins them with `' and '`. -/
def buildWiresharkFilterFromConfig (config : FilterConfigMap) : String :=
  let filters : List String := []
  let filters := match multiFilter config "ip" (fun ip => "ip.addr == " ++ ip) with
    | some f => filters ++ ["(" ++ f ++ ")"]
    | none => filters
  let filters := match multiFilter config "port"
      (fun port => "(tcp.port == " ++ port ++ " or udp.port == " ++ port ++ ")") with
    | some f => filters ++ ["(" ++ f ++ ")"]
    | none => filters
  let filters := match multiFilter config "protocol" (fun proto => jsToLower proto) with
    | some f => filters ++ ["(" ++ f ++ ")"]
    | none => filters
  let filters := match multiFilter config "sourceIp" (fun ip => "ip.src == " ++ ip) with
    | some f => filters ++ ["(" ++ f ++ ")"]
    | none => filters
  let filters := match multiFilter config "destinationIp" (fun ip => "ip.dst == " ++ ip) with
    | some f => filters ++ ["(" ++ f ++ ")"]
    | none => filters
  let filters := match multiFilter config "sourcePort"
      (fun port => "(tcp.srcport == " ++ port ++ " or udp.srcport == " ++ port ++ ")") with
    | some f => filters ++ ["(" ++ f ++ ")"]
    | none => filters
  let filters := match multiFilter config "destinationPort"
      (fun port => "(tcp.dstport == " ++ port ++ " or udp.dstport == " ++ port ++ ")") with
    | some f => filters ++ ["(" ++ f ++ ")"]
    | none => filters
  let filters := match getTruthy config "packetSizeMin" with
    | some v => filters ++ ["frame.len >= " ++ v]
    | none => filters
  let filters := match getTruthy config "packetSizeMax" with
    | some v => filters ++ ["frame.len <= " ++ v]
    | none => filters
  let filters := match getTruthy config "timeRange" with
    | some tr =>
      let tStart := (jsSplit tr '/').getD 0 ""
      let tEnd := (jsSplit tr '/').getD 1 ""
      let filters := if tStart ≠ "" then filters ++ ["frame.time >= \"" ++ tStart ++ "\""] else filters
      if tEnd ≠ "" then filters ++ ["frame.time <= \"" ++ tEnd ++ "\""] else filters
    | none => filters
  let filters := match multiFilter config "tcpFlags"
      (fun flag => "tcp.flags." ++ jsToLower flag ++ " == 1") with
    | some f => filters ++ ["(" ++ f ++ ")"]
    | none => filters
  let filters := match multiFilter config "payloadContent"
      (fun content => "frame contains \"" ++ content ++ "\"") with
    | some f => filters ++ ["(" ++ f ++ ")"]
    | none => filters
  let filters := match multiFilter config "macAddress" (fun mac => "eth.addr == " ++ mac) with
    | some f => filters ++ ["(" ++ f ++ ")"]
    | none => filters
  joinSep " and " filters

/-- The recognized config fields, in the order the compiler reads them. -/
def recognizedFields : List String :=
  ["ip", "port", "protocol", "sourceIp", "destinationIp", "sourcePort",
   "destinationPort", "packetSizeMin", "packetSizeMax", "timeRange",
   "tcpFlags", "payloadContent", "macAddress"]

/-! ## The capture store (`/data`) -/

/-- Raw file bytes. -/
abbrev Content := List Nat

/-- Data held by a file in `/data`: either raw bytes or, for
`config.json`, a JSON-serialised config (serialisation round-trips,
so the parsed object is stored directly). -/
inductive FData where
  | raw (bytes : Content)
  | cfg (config : FilterConfigMap)
deriving DecidableEq

/-- The `/data` directory: an association list from file name to data. -/
abbrev Store := List (String × FData)

/-- Read a file (`fs.readFile` / `existsSync` + read). -/
def findFile : Store → String → Option FData
  | [], _ => none
  | (n, d) :: rest, name => if n = name then some d else findFile rest name

/-- Delete a file (`fs.unlink` / `fs.rm {force: true}`). -/
def removeFile (s : Store) (name : String) : Store :=
  s.filter (fun e => e.1 ≠ name)

/-- Create or overwrite a file. -/
def setFile (s : Store) (name : String) (d : FData) : Store :=
  removeFile s name ++ [(name, d)]

/-- JavaScript `file.endsWith(suffix)`. -/
def fileEndsWith (name suffix : String) : Bool :=
  suffix.data.isSuffixOf name.data

/-- `readdir(dir)` filtered to `*.pcap`, keeping the file data the
external merge tool would read. -/
def pcapEntries (s : Store) : List (String × FData) :=
  s.filter (fun e => fileEndsWith e.1 ".pcap")

/-- The raw per-agent capture file written by a monitoring agent:
`tcpdump ... -w /data/dumpfile_${containerName}.pcap`. -/
def rawCaptureName (agent : String) : String :=
  "dumpfile_" ++ agent ++ ".pcap"

/-- Is `name` the RawCapture file of one of the given agents? -/
def isRawCaptureName (agents : List String) (name : String) : Bool :=
  agents.any (fun a => name = rawCaptureName a)

/-- The RawCapture files currently present in the store. -/
def rawCaptureEntries (agents : List String) (s : Store) : List (String × FData) :=
  s.filter (fun e => isRawCaptureName agents e.1)

/-! ## External tools and the pipeline -/

/-- Oracles for the external tools and the remote agents: `mergecap`
over the listed input files, `tshark -T json` over a capture, `tshark
-Y <expr>` over a capture, and the per-agent HTTP stop call outcome.
`none`/`false` means the invocation failed. -/
structure ToolEnv where
  mergeTool : List (String × FData) → Option Content
  decodeTool : FData → Option Content
  filterTool : FData → String → Option Content
  agentStop : String → Bool

/-- Failure modes of `mergePcaps`. -/
inductive MergeFail where
  | noCaptures
  | toolFailed
deriving DecidableEq

/-- The input files handed to `mergecap` by `mergePcaps`: every `*.pcap`
file still present after the stale merged capture was deleted. -/
def mergeInputSet (s : Store) (mergedPcapFile : String) : List (String × FData) :=
  pcapEntries (removeFile s mergedPcapFile)

/-- Source `mergePcaps(dir, mergedPcapFile)`: delete the stale merged
file, enumerate `*.pcap`, fail if none, else run mergecap and write the
merged capture. -/
def mergePcaps (env : ToolEnv) (s : Store) (mergedPcapFile : String) :
    Store × Option MergeFail :=
  let s1 := removeFile s mergedPcapFile
  let pcapFiles := mergeInputSet s mergedPcapFile
  if pcapFiles = [] then (s1, some .noCaptures)
  else
    match env.mergeTool pcapFiles with
    | some merged => (setFile s1 mergedPcapFile (.raw merged), none)
    | none => (s1, some .toolFailed)

/-- Source `pcapToJson(pcapFile, jsonFile)`: `tshark -r pcap -T json >
json`.  The shell redirect truncates/creates the JSON file even when
tshark fails; the returned flag says whether the command succeeded. -/
def pcapToJson (env : ToolEnv) (s : Store) (pcapFile jsonFile : String) :
    Store × Bool :=
  match findFile s pcapFile with
  | none => (setFile s jsonFile (.raw []), false)
  | some d =>
    match env.decodeTool d with
    | some json => (setFile s jsonFile (.raw json), true)
    | none => (setFile s jsonFile (.raw []), false)

/-- Filter status returned by `filterPcapAndJson`. -/
inductive FStatus where
  | ok
  | ko
deriving DecidableEq

/-- The tagged result of `filterPcapAndJson`. -/
structure FilterResult where
  status : FStatus
  filteredJsonData : Option Content
  errorMsg : Option String
deriving DecidableEq

/-- The tail of `filterPcapAndJson` after `filtered.pcap` was produced:
decode it to `filtered.json`; a decode error is caught and becomes
`ko`; a successful decode is read back and returned as `ok`. -/
def filterDecodeStep (env : ToolEnv) (s : Store) : Store × FilterResult :=
  let out := pcapToJson env s "filtered.pcap" "filtered.json"
  if out.2 then
    match findFile out.1 "filtered.json" with
    | some (.raw json) => (out.1, ⟨.ok, some json, none⟩)
    | _ => (out.1, ⟨.ko, none, some "Filtered JSON file not found after filtering."⟩)
  else
    (out.1, ⟨.ko, none, some "Filtering failed: tshark decode error"⟩)

/-- Source `filterPcapAndJson(mergedPcapFile, filterString, outputDir)`:
an empty filter string copies the merged capture to `filtered.pcap`
(`cp`), a non-empty one runs `tshark -Y`; then the filtered capture is
decoded.  Every error is caught and returned as a `ko` result. -/
def filterPcapAndJson (env : ToolEnv) (s : Store) (mergedPcapFile : String)
    (filterString : String) : Store × FilterResult :=
  if filterString = "" then
    match findFile s mergedPcapFile with
    | none => (s, ⟨.ko, none, some "Filtering failed: cp error"⟩)
    | some d => filterDecodeStep env (setFile s "filtered.pcap" d)
  else
    match findFile s mergedPcapFile with
    | none => (s, ⟨.ko, none, some "Filtering failed: tshark filter error"⟩)
    | some d =>
      match env.filterTool d filterString with
      | none => (s, ⟨.ko, none, some "Filtering failed: tshark filter error"⟩)
      | some filtered => filterDecodeStep env (setFile s "filtered.pcap" (.raw filtered))

/-- Source `getLatestConfig()`: parse `/data/config.json` if present. -/
def getLatestConfig (s : Store) : Option FilterConfigMap :=
  match findFile s "config.json" with
  | some (.cfg c) => some c
  | _ => none

/-- Source `saveConfig(config)`: overwrite `/data/config.json`. -/
def saveConfig (s : Store) (config : FilterConfigMap) : Store :=
  setFile s "config.json" (.cfg config)

/-! ## Endpoints -/

/-- Source `app.get('/server-name/:containerName')` registry update:
push the name only if it is not already present. -/
def registerName (containerNames : List String) (containerName : String) :
    List String :=
  if containerName ∈ containerNames then containerNames
  else containerNames ++ [containerName]

/-- Response of `GET /stop`. -/
inductive StopResponse where
  | ok (results : List (String × Bool)) (pcapData : Content)
      (filterStatus : Option FStatus) (error : Option String)
  | noAgents
  | failed (msg : String)
deriving DecidableEq

/-- Reading a raw file back and `JSON.parse`-ing it
(`JSON.parse(await fs.readFile(jsonOutputFile))`): the parsed record is
represented by the file content itself. -/
def readRawFile (s : Store) (name : String) : Content :=
  match findFile s name with
  | some (.raw c) => c
  | _ => []

/-- Source `app.get('/stop')`: fan out the stop signal, wait the grace
period (no filesystem effect here), then merge, decode, and — when a
config is persisted — filter.  Any exception out of `mergePcaps` or
`pcapToJson` lands in the catch block and becomes a 500 response. -/
def stopHandler (env : ToolEnv) (containerNames : List String) (s : Store) :
    Store × StopResponse :=
  if containerNames = [] then (s, .noAgents)
  else
    let results := containerNames.map (fun n => (n, env.agentStop n))
    let merged := mergePcaps env s "merged.pcap"
    match merged.2 with
    | some .noCaptures => (merged.1, .failed "No .pcap files found to merge.")
    | some .toolFailed => (merged.1, .failed "mergecap failed")
    | none =>
      let decoded := pcapToJson env merged.1 "merged.pcap" "output.json"
      if decoded.2 then
        let jsonData := readRawFile decoded.1 "output.json"
        match getLatestConfig decoded.1 with
        | some config =>
          let filterString := buildWiresharkFilterFromConfig config
          let filtered := filterPcapAndJson env decoded.1 "merged.pcap" filterString
          (filtered.1,
            .ok results (filtered.2.filteredJsonData.getD jsonData)
              (some filtered.2.status)
              (if filtered.2.status = .ko then filtered.2.errorMsg else none))
        | none => (decoded.1, .ok results jsonData none none)
      else
        (decoded.1, .failed "tshark decode failed")

/-- Response of `POST /config`. -/
inductive ConfigResponse where
  | savedFiltered (pcapData : Content)
  | savedFilterFailed (error : Option String)
  | savedNoFilter
  | serverError (msg : String)
deriving DecidableEq

/-- Source `app.post('/config')`: persist the config unconditionally,
then — when `merged.pcap` exists — re-filter it with the new config.
`filterStatus` is initialised to `'ko'`, so when no merged capture
exists the handler takes the 422 branch with no error message; the
200 `savedNoFilter` branch is reachable only if filtering reports `ok`
without data.  The catch-all 500 (`serverError`) is never produced by
the modelled paths. -/
def configHandler (env : ToolEnv) (s : Store) (config : FilterConfigMap) :
    Store × ConfigResponse :=
  let s1 := saveConfig s config
  match findFile s1 "merged.pcap" with
  | some _ =>
    let filterString := buildWiresharkFilterFromConfig config
    let filtered := filterPcapAndJson env s1 "merged.pcap" filterString
    match filtered.2.status, filtered.2.filteredJsonData with
    | .ok, some data => (filtered.1, .savedFiltered data)
    | .ok, none => (filtered.1, .savedNoFilter)
    | .ko, _ => (filtered.1, .savedFilterFailed filtered.2.errorMsg)
  | none => (s1, .savedFilterFailed none)

/-- Source `app.get('/cleanConf')`: delete `config.json`,
`filtered.pcap` and `filtered.json` when present; nothing else. -/
def cleanConf (s : Store) : Store :=
  removeFile (removeFile (removeFile s "config.json") "filtered.pcap") "filtered.json"

/-! ## Store lemmas -/

lemma findFile_removeFile (s : Store) (n m : String) :
    findFile (removeFile s n) m = if m = n then none else findFile s m := by
  induction s with
  | nil => simp [removeFile, findFile]
  | cons e rest ih =>
    by_cases he : e.1 = n
    · have hdrop : removeFile (e :: rest) n = removeFile rest n := by
        simp [removeFile, List.filter_cons, he]
      rw [hdrop, ih]
      by_cases hm : m = n
      · simp [hm]
      · have hne : ¬ e.1 = m := by rw [he]; exact fun h => hm h.symm
        simp [findFile, hne, hm]
    · have hkeep : removeFile (e :: rest) n = e :: removeFile rest n := by
        simp [removeFile, List.filter_cons, he]
      rw [hkeep]
      by_cases hm : e.1 = m
      · have hmn : ¬ m = n := fun h => he (hm.trans h)
        simp [findFile, hm, hmn]
      · simp [findFile, hm, ih]

lemma findFile_append (l1 l2 : Store) (m : String) :
    findFile (l1 ++ l2) m =
      match findFile l1 m with
      | some d => some d
      | none => findFile l2 m := by
  induction l1 with
  | nil => simp [findFile]
  | cons e rest ih =>
    simp only [List.cons_append, findFile]
    by_cases hm : e.1 = m
    · simp [hm]
    · simp [hm, ih]

lemma findFile_setFile (s : Store) (n m : String) (d : FData) :
    findFile (setFile s n d) m = if m = n then some d else findFile s m := by
  unfold setFile
  rw [findFile_append, findFile_removeFile]
  by_cases hm : m = n
  · simp [hm, findFile]
  · rw [if_neg hm, if_neg hm]
    cases h : findFile s m with
    | some d0 => rfl
    | none =>
      have : ¬ n = m := fun h => hm h.symm
      simp [findFile, this]

lemma findFile_eq_none_iff (s : Store) (n : String) :
    findFile s n = none ↔ ∀ e ∈ s, e.1 ≠ n := by
  induction s with
  | nil => simp [findFile]
  | cons e rest ih =>
    simp only [findFile, List.mem_cons]
    by_cases hm : e.1 = n
    · simp [hm]
    · simp only [if_neg hm, ih]
      constructor
      · rintro h x (rfl | hx)
        · exact hm
        · exact h x hx
      · intro h x hx
        exact h x (Or.inr hx)

/-! ## Claim C9: reset deletes config and filtered artifacts, nothing else -/

/-- C9: `reset()` (`GET /cleanConf`) removes the persisted FilterConfig
(`config.json`) and the FilteredCapture/FilteredRecord
(`filtered.pcap`, `filtered.json`), and leaves every other file — in
particular every RawCapture `dumpfile_*.pcap` and the MergedCapture
`merged.pcap` — exactly as it was. -/
theorem claim_C9_reset_deletes_only_filter_artifacts (s : Store) :
    (findFile (cleanConf s) "config.json" = none ∧
     findFile (cleanConf s) "filtered.pcap" = none ∧
     findFile (cleanConf s) "filtered.json" = none) ∧
    (∀ a : String, findFile (cleanConf s) (rawCaptureName a) =
        findFile s (rawCaptureName a)) ∧
    findFile (cleanConf s) "merged.pcap" = findFile s "merged.pcap" ∧
    (∀ name : String, name ≠ "config.json" → name ≠ "filtered.pcap" →
      name ≠ "filtered.json" → findFile (cleanConf s) name = findFile s name) := by
  have frame : ∀ name : String, name ≠ "config.json" → name ≠ "filtered.pcap" →
      name ≠ "filtered.json" → findFile (cleanConf s) name = findFile s name := by
    intro name h1 h2 h3
    unfold cleanConf
    rw [findFile_removeFile, if_neg h3, findFile_removeFile, if_neg h2,
      findFile_removeFile, if_neg h1]
  have hraw : ∀ a : String, rawCaptureName a ≠ "config.json" ∧
      rawCaptureName a ≠ "filtered.pcap" ∧ rawCaptureName a ≠ "filtered.json" := by
    intro a
    refine ⟨?_, ?_, ?_⟩ <;>
      · intro h
        have hd := congrArg String.data h
        simp only [rawCaptureName, String.data_append] at hd
        have : String.data "dumpfile_" ++ (a.data ++ String.data ".pcap") =
            String.data "dumpfile_" ++ a.data ++ String.data ".pcap" := by
          rw [List.append_assoc]
        rw [← this] at hd
        cases hd
  refine ⟨⟨?_, ?_, ?_⟩, ?_, ?_, frame⟩
  · unfold cleanConf
    rw [findFile_removeFile, if_neg (by decide), findFile_removeFile,
      if_neg (by decide), findFile_removeFile, if_pos rfl]
  · unfold cleanConf
    rw [findFile_removeFile, if_neg (by decide), findFile_removeFile, if_pos rfl]
  · unfold cleanConf
    rw [findFile_removeFile, if_pos rfl]
  · intro a
    exact frame _ (hraw a).1 (hraw a).2.1 (hraw a).2.2
  · exact frame _ (by decide) (by decide) (by decide)

/-- Witness for C9 at a concrete store: the raw capture and the merged
capture survive `cleanConf`, the config file is gone. -/
theorem claim_C9_witness :
    findFile (cleanConf [("dumpfile_scan1.pcap", FData.raw [1]),
        ("merged.pcap", FData.raw [2]), ("config.json", FData.cfg [])])
        "dumpfile_scan1.pcap" =
      findFile [("dumpfile_scan1.pcap", FData.raw [1]),
        ("merged.pcap", FData.raw [2]), ("config.json", FData.cfg [])]
        "dumpfile_scan1.pcap" ∧
    findFile (cleanConf [("dumpfile_scan1.pcap", FData.raw [1]),
        ("merged.pcap", FData.raw [2]), ("config.json", FData.cfg [])])
        "config.json" = none :=
  ⟨(claim_C9_reset_deletes_only_filter_artifacts _).2.2.2 "dumpfile_scan1.pcap"
      (by decide) (by decide) (by decide),
   (claim_C9_reset_deletes_only_filter_artifacts _).1.1⟩

/-! ## Claim C8: registration is idempotent -/

lemma registerName_toFinset (names : List String) (n : String) :
    (registerName names n).toFinset = insert n names.toFinset := by
  unfold registerName
  split
  · next h => rw [Finset.insert_eq_self.mpr (List.mem_toFinset.mpr h)]
  · rw [List.toFinset_append]
    simp only [List.toFinset_cons, List.toFinset_nil, insert_emptyc_eq]
    rw [Finset.union_comm, ← Finset.insert_eq]

lemma registerName_nodup (names : List String) (n : String)
    (h : names.Nodup) : (registerName names n).Nodup := by
  unfold registerName
  split
  · exact h
  · next hn => simp [List.nodup_append, h, hn]

lemma foldl_registerName_invariant (regs : List String) :
    ∀ acc : List String, acc.Nodup →
      (regs.foldl registerName acc).Nodup ∧
      (regs.foldl registerName acc).toFinset = acc.toFinset ∪ regs.toFinset := by
  induction regs with
  | nil => intro acc h; simp [h]
  | cons r rest ih =>
    intro acc h
    have step := ih (registerName acc r) (registerName_nodup acc r h)
    refine ⟨step.1, ?_⟩
    rw [List.foldl_cons, step.2, registerName_toFinset]
    rw [Finset.insert_union, List.toFinset_cons, Finset.union_insert]

/-- C8: registering an already-present identity is a no-op (no error is
possible: `registerName` is total), and for any sequence of
registrations starting from the empty registry, the resulting registry
size is the number of distinct identities registered. -/
theorem claim_C8_register_idempotent :
    (∀ (names : List String) (n : String), n ∈ names →
        registerName names n = names) ∧
    (∀ regs : List String,
        (regs.foldl registerName []).length = regs.toFinset.card) := by
  constructor
  · intro names n h
    unfold registerName
    exact if_pos h
  · intro regs
    have h := foldl_registerName_invariant regs [] (by simp)
    have hfin : (regs.foldl registerName []).toFinset = regs.toFinset := by
      rw [h.2]; simp
    rw [← hfin, List.toFinset_card_of_nodup h.1]

/-- Witness for C8: a duplicate registration is dropped and the final
size counts distinct identities only. -/
theorem claim_C8_witness :
    registerName ["scan1"] "scan1" = ["scan1"] ∧
    (["scan1", "scan2", "scan1"].foldl registerName []).length =
      (["scan1", "scan2", "scan1"] : List String).toFinset.card :=
  ⟨claim_C8_register_idempotent.1 ["scan1"] "scan1" (by decide),
   claim_C8_register_idempotent.2 ["scan1", "scan2", "scan1"]⟩

/-! ## Claim C5: value trimming and blank dropping -/

/-- C5: within each recognized field the comma-separated values are
trimmed and blank entries dropped — every surviving value is the trim
of one of the comma-separated chunks and is non-blank, and a field
whose values all become blank contributes nothing (`multiFilter`
returns `none`); concretely, `{ip: " 1.2.3.4 , 5.6.7.8 "}` compiles to
an OR of exactly the two address predicates. -/
theorem claim_C5_trim_and_drop_blanks :
    (∀ (config : FilterConfigMap) (field : String) (cb : String → String)
        (raw : String), getVal config field = some raw →
        splitTrimValues raw = [] → multiFilter config field cb = none) ∧
    (∀ raw v : String, v ∈ splitTrimValues raw →
        v ≠ "" ∧ ∃ u ∈ jsSplit raw ',', v = jsTrim u) ∧
    buildWiresharkFilterFromConfig [("ip", " 1.2.3.4 , 5.6.7.8 ")] =
      "(ip.addr == 1.2.3.4 or ip.addr == 5.6.7.8)" := by
  refine ⟨?_, ?_, by decide⟩
  · intro config field cb raw hval hempty
    unfold multiFilter getTruthy
    rw [hval]
    by_cases hraw : raw = ""
    · simp [hraw]
    · simp only [if_neg hraw]
      simp [hempty]
  · intro raw v hv
    unfold splitTrimValues at hv
    have hmem := List.mem_filter.mp hv
    refine ⟨by simpa using hmem.2, ?_⟩
    obtain ⟨u, hu, rfl⟩ := List.mem_map.mp hmem.1
    exact ⟨u, hu, rfl⟩

/-- Witness for C5: the field `{ip: " , "}` has only blank values and
is treated as absent. -/
theorem claim_C5_witness :
    multiFilter [("ip", " , ")] "ip" (fun ip => "ip.addr == " ++ ip) = none ∧
    ("1.2.3.4" : String) ≠ "" :=
  ⟨claim_C5_trim_and_drop_blanks.1 [("ip", " , ")] "ip" _ " , "
      (by decide) (by decide),
   (claim_C5_trim_and_drop_blanks.2.1 " 1.2.3.4 , 5.6.7.8 " "1.2.3.4"
      (by decide)).1⟩

/-! ## Pipeline frame lemmas -/

lemma pcapToJson_frame (env : ToolEnv) (s : Store) (p j name : String)
    (h : name ≠ j) :
    findFile (pcapToJson env s p j).1 name = findFile s name := by
  unfold pcapToJson
  cases hf : findFile s p with
  | none => simp only [hf]; rw [findFile_setFile, if_neg h]
  | some d =>
    simp only [hf]
    cases ht : env.decodeTool d with
    | none => simp only [ht]; rw [findFile_setFile, if_neg h]
    | some c => simp only [ht]; rw [findFile_setFile, if_neg h]

lemma filterDecodeStep_fst (env : ToolEnv) (s : Store) :
    (filterDecodeStep env s).1 =
      (pcapToJson env s "filtered.pcap" "filtered.json").1 := by
  unfold filterDecodeStep
  cases hout : pcapToJson env s "filtered.pcap" "filtered.json" with
  | mk s2 ok =>
    simp only [hout]
    cases ok
    · rfl
    · cases hff : findFile s2 "filtered.json" with
      | none => simp [hff]
      | some d => cases d <;> simp [hff]

lemma filterDecodeStep_frame (env : ToolEnv) (s : Store) (name : String)
    (h : name ≠ "filtered.json") :
    findFile (filterDecodeStep env s).1 name = findFile s name := by
  rw [filterDecodeStep_fst, pcapToJson_frame env s _ _ name h]

lemma filterPcapAndJson_frame (env : ToolEnv) (s : Store)
    (mergedPcapFile filterString name : String)
    (h1 : name ≠ "filtered.pcap") (h2 : name ≠ "filtered.json") :
    findFile (filterPcapAndJson env s mergedPcapFile filterString).1 name =
      findFile s name := by
  unfold filterPcapAndJson
  split
  · cases hf : findFile s mergedPcapFile with
    | none => simp only [hf]
    | some d =>
      simp only [hf]
      rw [filterDecodeStep_frame env _ name h2, findFile_setFile, if_neg h1]
  · cases hf : findFile s mergedPcapFile with
    | none => simp only [hf]
    | some d =>
      simp only [hf]
      cases ht : env.filterTool d filterString with
      | none => simp only [ht]
      | some filtered =>
        simp only [ht]
        rw [filterDecodeStep_frame env _ name h2, findFile_setFile, if_neg h1]

lemma configHandler_fst (env : ToolEnv) (s : Store) (config : FilterConfigMap) :
    (configHandler env s config).1 =
      match findFile (saveConfig s config) "merged.pcap" with
      | some _ =>
        (filterPcapAndJson env (saveConfig s config) "merged.pcap"
          (buildWiresharkFilterFromConfig config)).1
      | none => saveConfig s config := by
  unfold configHandler
  cases hm : findFile (saveConfig s config) "merged.pcap" with
  | none => simp only [hm]
  | some d =>
    simp only [hm]
    cases hst : (filterPcapAndJson env (saveConfig s config) "merged.pcap"
        (buildWiresharkFilterFromConfig config)).2.status with
    | ok =>
      cases hd : (filterPcapAndJson env (saveConfig s config) "merged.pcap"
          (buildWiresharkFilterFromConfig config)).2.filteredJsonData with
      | none => simp only [hst, hd]
      | some data => simp only [hst, hd]
    | ko => simp only [hst]

/-! ## Claim C6: submitConfig persists unconditionally and never fails -/

/-- C6: `POST /config` with a config mapping always persists the config
(replacing any previous `config.json`) and never produces the catch-all
500 `serverError` nor a rejection: the response is always one of the
three saved variants, the worst being a `ko` filter status attached to
the saved confirmation. -/
theorem claim_C6_submitConfig_never_fails (env : ToolEnv) (s : Store)
    (config : FilterConfigMap) :
    findFile (configHandler env s config).1 "config.json" = some (.cfg config) ∧
    ((∃ data, (configHandler env s config).2 = .savedFiltered data) ∨
     (∃ e, (configHandler env s config).2 = .savedFilterFailed e) ∨
     (configHandler env s config).2 = .savedNoFilter) := by
  constructor
  · rw [configHandler_fst]
    cases hm : findFile (saveConfig s config) "merged.pcap" with
    | none =>
      simp only
      unfold saveConfig
      rw [findFile_setFile, if_pos rfl]
    | some d =>
      simp only
      rw [filterPcapAndJson_frame env _ _ _ _ (by decide) (by decide)]
      unfold saveConfig
      rw [findFile_setFile, if_pos rfl]
  · unfold configHandler
    cases hm : findFile (saveConfig s config) "merged.pcap" with
    | none =>
      simp only [hm]
      right; left
      exact ⟨none, rfl⟩
    | some d =>
      simp only [hm]
      cases hst : (filterPcapAndJson env (saveConfig s config) "merged.pcap"
          (buildWiresharkFilterFromConfig config)).2.status with
      | ok =>
        cases hd : (filterPcapAndJson env (saveConfig s config) "merged.pcap"
            (buildWiresharkFilterFromConfig config)).2.filteredJsonData with
        | some data =>
          simp only [hst, hd]
          left
          exact ⟨data, rfl⟩
        | none =>
          simp only [hst, hd]
          right; right
          trivial
      | ko =>
        simp only [hst]
        right; left
        exact ⟨_, rfl⟩

/-! ## Claim C3: empty config compiles to the identity filter -/

lemma multiFilter_none_of_getTruthy {config : FilterConfigMap} {field : String}
    (h : getTruthy config field = none) (cb : String → String) :
    multiFilter config field cb = none := by
  unfold multiFilter
  rw [h]

lemma build_empty_of_all_absent (config : FilterConfigMap)
    (habsent : ∀ k ∈ recognizedFields, getTruthy config k = none) :
    buildWiresharkFilterFromConfig config = "" := by
  have hip := habsent "ip" (by decide)
  have hport := habsent "port" (by decide)
  have hproto := habsent "protocol" (by decide)
  have hsip := habsent "sourceIp" (by decide)
  have hdip := habsent "destinationIp" (by decide)
  have hsport := habsent "sourcePort" (by decide)
  have hdport := habsent "destinationPort" (by decide)
  have hmin := habsent "packetSizeMin" (by decide)
  have hmax := habsent "packetSizeMax" (by decide)
  have htime := habsent "timeRange" (by decide)
  have hflags := habsent "tcpFlags" (by decide)
  have hpay := habsent "payloadContent" (by decide)
  have hmac := habsent "macAddress" (by decide)
  unfold buildWiresharkFilterFromConfig
  rw [multiFilter_none_of_getTruthy hip, multiFilter_none_of_getTruthy hport,
    multiFilter_none_of_getTruthy hproto, multiFilter_none_of_getTruthy hsip,
    multiFilter_none_of_getTruthy hdip, multiFilter_none_of_getTruthy hsport,
    multiFilter_none_of_getTruthy hdport, hmin, hmax, htime,
    multiFilter_none_of_getTruthy hflags, multiFilter_none_of_getTruthy hpay,
    multiFilter_none_of_getTruthy hmac]
  rfl

/-- C3: when no recognized field of the submitted config is populated,
the compiler yields the empty expression, and re-filtering an existing
`merged.pcap` through `POST /config` takes the `cp` branch: the
produced `filtered.pcap` is byte-identical to the merged capture. -/
theorem claim_C3_empty_filter_is_identity (env : ToolEnv) (s : Store)
    (config : FilterConfigMap) (d : FData)
    (hmerged : findFile s "merged.pcap" = some d)
    (habsent : ∀ k ∈ recognizedFields, getTruthy config k = none) :
    buildWiresharkFilterFromConfig config = "" ∧
    findFile (configHandler env s config).1 "filtered.pcap" = some d := by
  have hbuild := build_empty_of_all_absent config habsent
  refine ⟨hbuild, ?_⟩
  have hmerged1 : findFile (saveConfig s config) "merged.pcap" = some d := by
    unfold saveConfig
    rw [findFile_setFile, if_neg (by decide)]
    exact hmerged
  rw [configHandler_fst, hmerged1]
  simp only [hbuild]
  unfold filterPcapAndJson
  rw [if_pos rfl, hmerged1]
  simp only
  rw [filterDecodeStep_frame env _ _ (by decide), findFile_setFile, if_pos rfl]

/-- Witness for C3: a concrete store with a merged capture and the
empty config. -/
theorem claim_C3_witness :
    buildWiresharkFilterFromConfig [] = "" ∧
    findFile (configHandler ⟨fun _ => some [7], fun _ => some [8],
        fun _ _ => some [9], fun _ => true⟩
      [("merged.pcap", FData.raw [5])] []).1 "filtered.pcap" =
      some (FData.raw [5]) :=
  claim_C3_empty_filter_is_identity _ _ [] (FData.raw [5]) (by decide) (by decide)

/-! ## Claim C7: stop with no captures to merge -/

lemma mergePcaps_no_inputs (env : ToolEnv) (s : Store) (f : String)
    (h : mergeInputSet s f = []) :
    mergePcaps env s f = (removeFile s f, some .noCaptures) := by
  simp [mergePcaps, h]

/-- C7 (amended): when no `*.pcap` file at all is present besides a
possibly stale `merged.pcap` — in particular, zero RawCaptures and no
stale `filtered.pcap` — `stop()` fails with the
`No .pcap files found to merge.` error and no MergedCapture exists
afterwards.  (The original claim conditioned only on zero RawCaptures;
a stale `filtered.pcap` defeats it, see the counterexample.) -/
theorem claim_C7_stop_without_captures_fails (env : ToolEnv)
    (agents : List String) (s : Store) (hagents : ¬ agents = [])
    (hnopcap : mergeInputSet s "merged.pcap" = []) :
    (stopHandler env agents s).2 = .failed "No .pcap files found to merge." ∧
    findFile (stopHandler env agents s).1 "merged.pcap" = none := by
  have hm := mergePcaps_no_inputs env s "merged.pcap" hnopcap
  unfold stopHandler
  rw [if_neg hagents]
  simp only [hm]
  refine ⟨by trivial, ?_⟩
  rw [findFile_removeFile, if_pos rfl]

/-- Counterexample to C7 as stated: with zero RawCapture files present
but a stale `filtered.pcap` in the store, `stop()` does not fail — it
merges the stale derived artifact and writes a MergedCapture. -/
theorem claim_C7_counterexample :
    rawCaptureEntries ["scan1"] [("filtered.pcap", FData.raw [1])] = [] ∧
    (stopHandler ⟨fun _ => some [5], fun _ => some [9], fun _ _ => none,
        fun _ => true⟩ ["scan1"] [("filtered.pcap", FData.raw [1])]).2 =
      .ok [("scan1", true)] [9] none none ∧
    findFile (stopHandler ⟨fun _ => some [5], fun _ => some [9],
        fun _ _ => none, fun _ => true⟩ ["scan1"]
        [("filtered.pcap", FData.raw [1])]).1 "merged.pcap" =
      some (FData.raw [5]) := by
  refine ⟨by decide, by decide, by decide⟩

/-- Witness for C7 (amended) at a store that holds only a stale merged
capture and a config file. -/
theorem claim_C7_witness :
    (stopHandler ⟨fun _ => some [5], fun _ => some [9], fun _ _ => none,
        fun _ => true⟩ ["scan1"]
        [("merged.pcap", FData.raw [3]), ("config.json", FData.cfg [])]).2 =
      .failed "No .pcap files found to merge." ∧
    findFile (stopHandler ⟨fun _ => some [5], fun _ => some [9],
        fun _ _ => none, fun _ => true⟩ ["scan1"]
        [("merged.pcap", FData.raw [3]), ("config.json", FData.cfg [])]).1
      "merged.pcap" = none :=
  claim_C7_stop_without_captures_fails _ ["scan1"] _ (by decide) (by decide)

/-! ## Claim C2: what the merge tool is fed -/

lemma rawCaptureName_ne_pipeline (a : String) :
    rawCaptureName a ≠ "merged.pcap" ∧ rawCaptureName a ≠ "filtered.pcap" := by
  constructor <;>
    · intro h
      have hd := congrArg String.data h
      simp only [rawCaptureName, String.data_append] at hd
      have hassoc : String.data "dumpfile_" ++ (a.data ++ String.data ".pcap") =
          String.data "dumpfile_" ++ a.data ++ String.data ".pcap" := by
        rw [List.append_assoc]
      rw [← hassoc] at hd
      cases hd

lemma fileEndsWith_rawCaptureName (a : String) :
    fileEndsWith (rawCaptureName a) ".pcap" = true := by
  unfold fileEndsWith rawCaptureName
  rw [List.isSuffixOf_iff_suffix]
  rw [String.data_append]
  exact List.suffix_append _ _

lemma isRawCaptureName_merged_false (agents : List String) :
    isRawCaptureName agents "merged.pcap" = false := by
  unfold isRawCaptureName
  rw [List.any_eq_false]
  intro a _
  simp only [decide_eq_true_eq]
  exact fun h => (rawCaptureName_ne_pipeline a).1 h.symm

/-- C2 (amended): the input set handed to the external merge tool is
exactly the set of `*.pcap` files present after the stale MergedCapture
was deleted; when every such file is either a RawCapture of a
registered agent or one of the two derived names, and no stale
FilteredCapture is present, this is exactly the RawCapture set.  (The
original claim omitted the FilteredCapture caveat: `filtered.pcap` also
ends in `.pcap` and is merged when present, see the counterexample.) -/
theorem claim_C2_merge_inputs_exactly_raws (s : Store) (agents : List String)
    (hnames : ∀ e ∈ s, fileEndsWith e.1 ".pcap" = true →
        e.1 = "merged.pcap" ∨ e.1 = "filtered.pcap" ∨
        isRawCaptureName agents e.1 = true)
    (hnofiltered : findFile s "filtered.pcap" = none) :
    mergeInputSet s "merged.pcap" = rawCaptureEntries agents s := by
  unfold mergeInputSet pcapEntries removeFile rawCaptureEntries
  rw [List.filter_filter]
  apply List.filter_congr
  intro e he
  have hnotf : e.1 ≠ "filtered.pcap" :=
    (findFile_eq_none_iff s "filtered.pcap").mp hnofiltered e he
  by_cases hm : e.1 = "merged.pcap"
  · simp [hm, isRawCaptureName_merged_false]
  · by_cases hpcap : fileEndsWith e.1 ".pcap" = true
    · have hraw : isRawCaptureName agents e.1 = true := by
        rcases hnames e he hpcap with h | h | h
        · exact absurd h hm
        · exact absurd h hnotf
        · exact h
      simp [hm, hpcap, hraw]
    · have hraw : isRawCaptureName agents e.1 = false := by
        rw [Bool.eq_false_iff]
        intro htrue
        unfold isRawCaptureName at htrue
        rw [List.any_eq_true] at htrue
        obtain ⟨a, _, ha⟩ := htrue
        rw [decide_eq_true_eq] at ha
        rw [ha, fileEndsWith_rawCaptureName] at hpcap
        exact hpcap rfl
      have hpf : fileEndsWith e.1 ".pcap" = false := Bool.eq_false_iff.mpr hpcap
      simp [hm, hpf, hraw]

/-- Counterexample to C2 as stated: with a stale `filtered.pcap` in the
store at stop-time, the merge input set contains that previously
derived artifact, which is not a RawCapture of any agent. -/
theorem claim_C2_counterexample :
    ("filtered.pcap", FData.raw [2]) ∈
      mergeInputSet [("dumpfile_scan1.pcap", FData.raw [1]),
        ("filtered.pcap", FData.raw [2])] "merged.pcap" ∧
    isRawCaptureName ["scan1"] "filtered.pcap" = false := by decide

/-- Witness for C2 (amended) at a concrete store with one raw capture,
a stale merged capture and no stale filtered capture. -/
theorem claim_C2_witness :
    mergeInputSet [("dumpfile_scan1.pcap", FData.raw [1]),
        ("merged.pcap", FData.raw [3]), ("output.json", FData.raw [4])]
        "merged.pcap" =
      rawCaptureEntries ["scan1"]
        [("dumpfile_scan1.pcap", FData.raw [1]),
         ("merged.pcap", FData.raw [3]), ("output.json", FData.raw [4])] :=
  claim_C2_merge_inputs_exactly_raws _ ["scan1"] (by decide) (by decide)

/-! ## Claim C1: which pipeline failures abort stop() -/

lemma filterDecodeStep_ko (env : ToolEnv) (s : Store)
    (h : (filterDecodeStep env s).2.status = .ko) :
    (filterDecodeStep env s).2.filteredJsonData = none ∧
    ∃ msg, (filterDecodeStep env s).2.errorMsg = some msg := by
  unfold filterDecodeStep at h ⊢
  cases hout : pcapToJson env s "filtered.pcap" "filtered.json" with
  | mk s2 ok =>
    simp only [hout] at h ⊢
    cases ok
    · exact ⟨rfl, _, rfl⟩
    · cases hff : findFile s2 "filtered.json" with
      | none => simp only [hff] at h ⊢; exact ⟨rfl, _, rfl⟩
      | some d =>
        cases d with
        | raw json => simp only [hff] at h; simp at h
        | cfg c => simp only [hff] at h ⊢; exact ⟨rfl, _, rfl⟩

lemma filterPcapAndJson_ko_fields (env : ToolEnv) (s : Store) (m fs : String)
    (h : (filterPcapAndJson env s m fs).2.status = .ko) :
    (filterPcapAndJson env s m fs).2.filteredJsonData = none ∧
    ∃ msg, (filterPcapAndJson env s m fs).2.errorMsg = some msg := by
  unfold filterPcapAndJson at h ⊢
  by_cases he : fs = ""
  · simp only [if_pos he] at h ⊢
    cases hf : findFile s m with
    | none => simp only [hf] at h ⊢; exact ⟨trivial, _, rfl⟩
    | some d =>
      simp only [hf] at h ⊢
      exact filterDecodeStep_ko env _ h
  · simp only [if_neg he] at h ⊢
    cases hf : findFile s m with
    | none => simp only [hf] at h ⊢; exact ⟨trivial, _, rfl⟩
    | some d =>
      simp only [hf] at h ⊢
      cases ht : env.filterTool d fs with
      | none => simp only [ht] at h ⊢; exact ⟨trivial, _, rfl⟩
      | some filtered =>
        simp only [ht] at h ⊢
        exact filterDecodeStep_ko env _ h

/-- C1 (amended): both a merge failure and a decode failure of the
merged capture abort `stop()` and are surfaced as the operation's 500
error; only a filter-step failure after a successful merge and decode
is reported as a degraded success — the per-agent stop outcomes are
still returned together with the `ko` status and the aggregation error.
(The original claim said decode failures were degraded successes too;
the counterexample shows they abort.) -/
theorem claim_C1_stop_failure_split (env : ToolEnv) (agents : List String)
    (s : Store) (hagents : ¬ agents = []) :
    ((mergePcaps env s "merged.pcap").2 = some .noCaptures →
      (stopHandler env agents s).2 = .failed "No .pcap files found to merge.") ∧
    ((mergePcaps env s "merged.pcap").2 = some .toolFailed →
      (stopHandler env agents s).2 = .failed "mergecap failed") ∧
    ((mergePcaps env s "merged.pcap").2 = none →
      (pcapToJson env (mergePcaps env s "merged.pcap").1 "merged.pcap"
          "output.json").2 = false →
      (stopHandler env agents s).2 = .failed "tshark decode failed") ∧
    (∀ config : FilterConfigMap,
      (mergePcaps env s "merged.pcap").2 = none →
      (pcapToJson env (mergePcaps env s "merged.pcap").1 "merged.pcap"
          "output.json").2 = true →
      getLatestConfig (pcapToJson env (mergePcaps env s "merged.pcap").1
          "merged.pcap" "output.json").1 = some config →
      (filterPcapAndJson env (pcapToJson env (mergePcaps env s "merged.pcap").1
          "merged.pcap" "output.json").1 "merged.pcap"
          (buildWiresharkFilterFromConfig config)).2.status = .ko →
      ∃ errMsg : String,
        (stopHandler env agents s).2 =
          .ok (agents.map (fun n => (n, env.agentStop n)))
            (readRawFile (pcapToJson env (mergePcaps env s "merged.pcap").1
                "merged.pcap" "output.json").1 "output.json")
            (some .ko) (some errMsg)) := by
  refine ⟨?_, ?_, ?_, ?_⟩
  · intro h
    have hpair : mergePcaps env s "merged.pcap" =
        ((mergePcaps env s "merged.pcap").1, some .noCaptures) := by
      rw [← h]
    unfold stopHandler
    rw [if_neg hagents, hpair]
  · intro h
    have hpair : mergePcaps env s "merged.pcap" =
        ((mergePcaps env s "merged.pcap").1, some .toolFailed) := by
      rw [← h]
    unfold stopHandler
    rw [if_neg hagents, hpair]
  · intro hm hd
    have hpairm : mergePcaps env s "merged.pcap" =
        ((mergePcaps env s "merged.pcap").1, none) := by
      rw [← hm]
    have hpaird : pcapToJson env (mergePcaps env s "merged.pcap").1
        "merged.pcap" "output.json" =
        ((pcapToJson env (mergePcaps env s "merged.pcap").1 "merged.pcap"
          "output.json").1, false) := by
      rw [← hd]
    unfold stopHandler
    rw [if_neg hagents, hpairm]
    dsimp only
    rw [hpaird]
    rfl
  · intro config hm hd hcfg hko
    obtain ⟨hdata, msg, hmsg⟩ := filterPcapAndJson_ko_fields env _ _ _ hko
    refine ⟨msg, ?_⟩
    have hpairm : mergePcaps env s "merged.pcap" =
        ((mergePcaps env s "merged.pcap").1, none) := by
      rw [← hm]
    have hpaird : pcapToJson env (mergePcaps env s "merged.pcap").1
        "merged.pcap" "output.json" =
        ((pcapToJson env (mergePcaps env s "merged.pcap").1 "merged.pcap"
          "output.json").1, true) := by
      rw [← hd]
    unfold stopHandler
    rw [if_neg hagents, hpairm]
    dsimp only
    rw [hpaird]
    dsimp only
    rw [hcfg]
    dsimp only
    rw [hko, hdata, hmsg]
    rfl

/-- Counterexample to C1 as stated: a concrete run in which the merge
step succeeds but the decode of the merged capture fails; the operation
is reported as a 500 failure, not as a degraded success with per-agent
outcomes. -/
theorem claim_C1_counterexample :
    (mergePcaps ⟨fun _ => some [7], fun _ => none, fun _ _ => none,
        fun _ => true⟩ [("dumpfile_scan1.pcap", FData.raw [1])]
        "merged.pcap").2 = none ∧
    (pcapToJson ⟨fun _ => some [7], fun _ => none, fun _ _ => none,
        fun _ => true⟩
      (mergePcaps ⟨fun _ => some [7], fun _ => none, fun _ _ => none,
        fun _ => true⟩ [("dumpfile_scan1.pcap", FData.raw [1])]
        "merged.pcap").1 "merged.pcap" "output.json").2 = false ∧
    (stopHandler ⟨fun _ => some [7], fun _ => none, fun _ _ => none,
        fun _ => true⟩ ["scan1"] [("dumpfile_scan1.pcap", FData.raw [1])]).2 =
      .failed "tshark decode failed" := by decide

/-- The tool environment of the C1 witness run: merge and decode
succeed, the filter tool fails. -/
def envFilterKo : ToolEnv :=
  ⟨fun _ => some [5], fun _ => some [9], fun _ _ => none, fun _ => true⟩

/-- The store of the C1 witness run: one raw capture and a persisted
non-empty config. -/
def storeFilterKo : Store :=
  [("dumpfile_scan1.pcap", FData.raw [1]),
   ("config.json", FData.cfg [("ip", "1.2.3.4")])]

/-- Witness for C1 (amended), degraded-success branch: the filter tool
fails after merge and decode succeeded, and stop() still answers with
the per-agent outcomes, the `ko` status and an attached error. -/
theorem claim_C1_witness :
    ∃ errMsg : String,
      (stopHandler envFilterKo ["scan1"] storeFilterKo).2 =
        .ok (["scan1"].map (fun n => (n, envFilterKo.agentStop n)))
          (readRawFile (pcapToJson envFilterKo
              (mergePcaps envFilterKo storeFilterKo "merged.pcap").1
              "merged.pcap" "output.json").1 "output.json")
          (some .ko) (some errMsg) :=
  (claim_C1_stop_failure_split envFilterKo ["scan1"] storeFilterKo
    (by decide)).2.2.2 [("ip", "1.2.3.4")] (by decide) (by decide)
    (by decide) (by decide)

/-! ## Claim C4: AND/OR structure and canonical clause order -/

lemma getTruthy_congr {c1 c2 : FilterConfigMap} {f : String}
    (h : getVal c1 f = getVal c2 f) : getTruthy c1 f = getTruthy c2 f := by
  unfold getTruthy
  rw [h]

lemma multiFilter_congr {c1 c2 : FilterConfigMap} {f : String}
    (cb : String → String) (h : getVal c1 f = getVal c2 f) :
    multiFilter c1 f cb = multiFilter c2 f cb := by
  unfold multiFilter
  rw [getTruthy_congr h]

/-- One parenthesised OR-clause, as pushed by the compiler. -/
def orClauseOf (o : Option String) : List String :=
  match o with
  | some f => ["(" ++ f ++ ")"]
  | none => []

/-- The minimum-frame-length clause. -/
def minClauseOf (o : Option String) : List String :=
  match o with
  | some v => ["frame.len >= " ++ v]
  | none => []

/-- The maximum-frame-length clause. -/
def maxClauseOf (o : Option String) : List String :=
  match o with
  | some v => ["frame.len <= " ++ v]
  | none => []

/-- The up-to-two time-bound clauses from the `timeRange` field. -/
def timeClausesOf (o : Option String) : List String :=
  match o with
  | some tr =>
    (if (jsSplit tr '/').getD 0 "" ≠ "" then
       ["frame.time >= \"" ++ (jsSplit tr '/').getD 0 "" ++ "\""] else []) ++
    (if (jsSplit tr '/').getD 1 "" ≠ "" then
       ["frame.time <= \"" ++ (jsSplit tr '/').getD 1 "" ++ "\""] else [])
  | none => []

/-- The spec-side canonical clause list: one sub-expression per
populated field (OR of its values), in the single fixed field order,
to be AND-joined at the top level. -/
def specCanonicalClauses (config : FilterConfigMap) : List String :=
  orClauseOf (multiFilter config "ip" (fun ip => "ip.addr == " ++ ip)) ++
  orClauseOf (multiFilter config "port"
    (fun port => "(tcp.port == " ++ port ++ " or udp.port == " ++ port ++ ")")) ++
  orClauseOf (multiFilter config "protocol" (fun proto => jsToLower proto)) ++
  orClauseOf (multiFilter config "sourceIp" (fun ip => "ip.src == " ++ ip)) ++
  orClauseOf (multiFilter config "destinationIp" (fun ip => "ip.dst == " ++ ip)) ++
  orClauseOf (multiFilter config "sourcePort"
    (fun port => "(tcp.srcport == " ++ port ++ " or udp.srcport == " ++ port ++ ")")) ++
  orClauseOf (multiFilter config "destinationPort"
    (fun port => "(tcp.dstport == " ++ port ++ " or udp.dstport == " ++ port ++ ")")) ++
  minClauseOf (getTruthy config "packetSizeMin") ++
  maxClauseOf (getTruthy config "packetSizeMax") ++
  timeClausesOf (getTruthy config "timeRange") ++
  orClauseOf (multiFilter config "tcpFlags"
    (fun flag => "tcp.flags." ++ jsToLower flag ++ " == 1")) ++
  orClauseOf (multiFilter config "payloadContent"
    (fun content => "frame contains \"" ++ content ++ "\"")) ++
  orClauseOf (multiFilter config "macAddress" (fun mac => "eth.addr == " ++ mac))

lemma pushOrClause (o : Option String) (l : List String) :
    (match o with
     | some f => l ++ ["(" ++ f ++ ")"]
     | none => l) = l ++ orClauseOf o := by
  cases o <;> simp [orClauseOf]

lemma pushMinClause (o : Option String) (l : List String) :
    (match o with
     | some v => l ++ ["frame.len >= " ++ v]
     | none => l) = l ++ minClauseOf o := by
  cases o <;> simp [minClauseOf]

lemma pushMaxClause (o : Option String) (l : List String) :
    (match o with
     | some v => l ++ ["frame.len <= " ++ v]
     | none => l) = l ++ maxClauseOf o := by
  cases o <;> simp [maxClauseOf]

lemma pushIfClause (c : Prop) [Decidable c] (l : List String) (x : String) :
    (if c then l ++ [x] else l) = l ++ (if c then [x] else []) := by
  split <;> simp

lemma pushTimeClause (o : Option String) (l : List String) :
    (match o with
     | some tr =>
       (l ++ (if (jsSplit tr '/').getD 0 "" ≠ "" then
                ["frame.time >= \"" ++ (jsSplit tr '/').getD 0 "" ++ "\""] else [])) ++
         (if (jsSplit tr '/').getD 1 "" ≠ "" then
            ["frame.time <= \"" ++ (jsSplit tr '/').getD 1 "" ++ "\""] else [])
     | none => l) = l ++ timeClausesOf o := by
  cases o <;> simp [timeClausesOf]

/-- C4: the compiler ORs the comma-separated values inside each field
(`multiFilter`), ANDs the per-field sub-expressions at the top level,
emits the clauses in one fixed canonical order — the decomposition into
`specCanonicalClauses` joined by `' and '` — and its output depends
only on the values of the thirteen recognized fields, not on the order
of the fields in the config. -/
theorem claim_C4_field_order_and_canonical_clauses :
    (∀ cfg1 cfg2 : FilterConfigMap,
        (∀ k ∈ recognizedFields, getVal cfg1 k = getVal cfg2 k) →
        buildWiresharkFilterFromConfig cfg1 = buildWiresharkFilterFromConfig cfg2) ∧
    (∀ config : FilterConfigMap,
        buildWiresharkFilterFromConfig config =
          joinSep " and " (specCanonicalClauses config)) ∧
    buildWiresharkFilterFromConfig
        [("packetSizeMin", "64"), ("packetSizeMax", "1500")] =
      "frame.len >= 64 and frame.len <= 1500" := by
  refine ⟨?_, ?_, by decide⟩
  · intro cfg1 cfg2 h
    unfold buildWiresharkFilterFromConfig
    rw [multiFilter_congr _ (h "ip" (by decide)),
      multiFilter_congr _ (h "port" (by decide)),
      multiFilter_congr _ (h "protocol" (by decide)),
      multiFilter_congr _ (h "sourceIp" (by decide)),
      multiFilter_congr _ (h "destinationIp" (by decide)),
      multiFilter_congr _ (h "sourcePort" (by decide)),
      multiFilter_congr _ (h "destinationPort" (by decide)),
      getTruthy_congr (h "packetSizeMin" (by decide)),
      getTruthy_congr (h "packetSizeMax" (by decide)),
      getTruthy_congr (h "timeRange" (by decide)),
      multiFilter_congr _ (h "tcpFlags" (by decide)),
      multiFilter_congr _ (h "payloadContent" (by decide)),
      multiFilter_congr _ (h "macAddress" (by decide))]
  · intro config
    simp only [buildWiresharkFilterFromConfig, specCanonicalClauses]
    simp only [pushIfClause]
    simp only [pushOrClause, pushMinClause, pushMaxClause, pushTimeClause]
    simp only [List.nil_append, List.append_assoc]

/-- Witness for C4: reordering the fields of a config does not change
the compiled expression. -/
theorem claim_C4_witness :
    buildWiresharkFilterFromConfig
        [("packetSizeMax", "1500"), ("packetSizeMin", "64"), ("ip", "9.9.9.9")] =
      buildWiresharkFilterFromConfig
        [("ip", "9.9.9.9"), ("packetSizeMin", "64"), ("packetSizeMax", "1500")] :=
  claim_C4_field_order_and_canonical_clauses.1 _ _ (by decide)

/-! ## Claim C10: case-insensitivity of protocol and tcpFlags values -/

lemma char_eq_iff_toNat {c d : Char} : c = d ↔ c.toNat = d.toNat := by
  rw [Char.ext_iff]
  exact ⟨fun h => by rw [Char.toNat, Char.toNat, h], fun h => UInt32.toNat.inj h⟩

lemma toNat_ofNat_small {n : Nat} (h : n < 0xd800) : (Char.ofNat n).toNat = n := by
  rw [Char.ofNat, dif_pos (Or.inl h)]
  simp [Char.ofNatAux, Char.toNat, UInt32.ofNat', UInt32.toNat]

lemma toLower_comma_iff (c : Char) : Char.toLower c = ',' ↔ c = ',' := by
  constructor
  · intro h
    rw [Char.toLower] at h
    split at h
    · next hc =>
        exfalso
        rw [char_eq_iff_toNat] at h
        rw [toNat_ofNat_small (by omega)] at h
        have : (',' : Char).toNat = 44 := by decide
        omega
    · exact h
  · intro h
    subst h
    decide

lemma isWhitespace_toLower (c : Char) :
    (Char.toLower c).isWhitespace = c.isWhitespace := by
  rw [Char.toLower]
  split
  · next hc =>
      have h32 : (Char.ofNat (c.toNat + 32)).toNat = c.toNat + 32 :=
        toNat_ofNat_small (by omega)
      have keyL : ∀ d : Char, d.toNat = c.toNat + 32 → d.isWhitespace = false := by
        intro d hd
        rw [Char.isWhitespace]
        have h1 : d ≠ ' ' := by
          rw [Ne, char_eq_iff_toNat, hd]
          have : (' ' : Char).toNat = 32 := by decide
          omega
        have h2 : d ≠ '\t' := by
          rw [Ne, char_eq_iff_toNat, hd]
          have : ('\t' : Char).toNat = 9 := by decide
          omega
        have h3 : d ≠ '\r' := by
          rw [Ne, char_eq_iff_toNat, hd]
          have : ('\r' : Char).toNat = 13 := by decide
          omega
        have h4 : d ≠ '\n' := by
          rw [Ne, char_eq_iff_toNat, hd]
          have : ('\n' : Char).toNat = 10 := by decide
          omega
        simp [h1, h2, h3, h4]
      have keyR : c.isWhitespace = false := by
        rw [Char.isWhitespace]
        have h1 : c ≠ ' ' := by
          rw [Ne, char_eq_iff_toNat]
          have : (' ' : Char).toNat = 32 := by decide
          omega
        have h2 : c ≠ '\t' := by
          rw [Ne, char_eq_iff_toNat]
          have : ('\t' : Char).toNat = 9 := by decide
          omega
        have h3 : c ≠ '\r' := by
          rw [Ne, char_eq_iff_toNat]
          have : ('\r' : Char).toNat = 13 := by decide
          omega
        have h4 : c ≠ '\n' := by
          rw [Ne, char_eq_iff_toNat]
          have : ('\n' : Char).toNat = 10 := by decide
          omega
        simp [h1, h2, h3, h4]
      rw [keyL _ h32, keyR]
  · rfl

lemma splitOnChar_map_toLower (l : List Char) :
    splitOnChar ',' (l.map Char.toLower) =
      (splitOnChar ',' l).map (List.map Char.toLower) := by
  induction l with
  | nil => rfl
  | cons c cs ih =>
    simp only [List.map_cons, splitOnChar]
    by_cases hc : c = ','
    · rw [if_pos ((toLower_comma_iff c).mpr hc), if_pos hc, ih]
      rfl
    · rw [if_neg (fun h => hc ((toLower_comma_iff c).mp h)), if_neg hc, ih]
      cases hsplit : splitOnChar ',' cs with
      | nil => rfl
      | cons chunk rest => rfl

lemma dropWhile_ws_map_toLower (l : List Char) :
    (l.map Char.toLower).dropWhile Char.isWhitespace =
      (l.dropWhile Char.isWhitespace).map Char.toLower := by
  rw [List.dropWhile_map]
  have : (Char.isWhitespace ∘ Char.toLower) = Char.isWhitespace := by
    funext c
    exact isWhitespace_toLower c
  rw [this]

lemma trimList_map_toLower (l : List Char) :
    trimList (l.map Char.toLower) = (trimList l).map Char.toLower := by
  unfold trimList
  rw [dropWhile_ws_map_toLower, ← List.map_reverse, dropWhile_ws_map_toLower,
    ← List.map_reverse]

lemma jsToLower_empty_iff (s : String) : jsToLower s = "" ↔ s = "" := by
  constructor
  · intro h
    have hd := congrArg String.data h
    have : s.data.map Char.toLower = [] := hd
    have hnil : s.data = [] := List.map_eq_nil_iff.mp this
    cases s with
    | mk data => cases hnil; rfl
  · intro h
    rw [h]
    rfl

lemma jsTrim_jsToLower (s : String) :
    jsTrim (jsToLower s) = jsToLower (jsTrim s) :=
  congrArg String.mk (trimList_map_toLower s.data)

lemma jsSplit_jsToLower (s : String) :
    jsSplit (jsToLower s) ',' = (jsSplit s ',').map jsToLower := by
  unfold jsSplit
  show (splitOnChar ',' (s.data.map Char.toLower)).map String.mk = _
  rw [splitOnChar_map_toLower, List.map_map, List.map_map]
  rfl

lemma splitTrimValues_jsToLower (s : String) :
    splitTrimValues (jsToLower s) = (splitTrimValues s).map jsToLower := by
  unfold splitTrimValues
  rw [jsSplit_jsToLower, List.map_map]
  have hcomp : (jsTrim ∘ jsToLower) = (jsToLower ∘ jsTrim) := by
    funext v
    exact jsTrim_jsToLower v
  rw [hcomp, ← List.map_map, List.filter_map]
  have hpred : ((fun v => decide (v ≠ "")) ∘ jsToLower) = fun v => decide (v ≠ "") := by
    funext v
    simp [jsToLower_empty_iff]
  rw [hpred]

lemma splitTrim_lower_congr {p q : String} (hpq : jsToLower p = jsToLower q) :
    (splitTrimValues p).map jsToLower = (splitTrimValues q).map jsToLower := by
  rw [← splitTrimValues_jsToLower, ← splitTrimValues_jsToLower, hpq]

lemma map_lower_cb_congr (h : String → String) {xs ys : List String}
    (hxy : xs.map jsToLower = ys.map jsToLower) :
    xs.map (fun v => h (jsToLower v)) = ys.map (fun v => h (jsToLower v)) := by
  have h1 : xs.map (fun v => h (jsToLower v)) = (xs.map jsToLower).map h :=
    (List.map_map h jsToLower xs).symm
  have h2 : ys.map (fun v => h (jsToLower v)) = (ys.map jsToLower).map h :=
    (List.map_map h jsToLower ys).symm
  rw [h1, h2, hxy]

/-- Case-equivalence of two optional field values: both absent, or both
present and equal after lowercasing. -/
def optCaseEq : Option String → Option String → Prop
  | none, none => True
  | some p, some q => jsToLower p = jsToLower q
  | _, _ => False

lemma multiFilter_lower_congr (c1 c2 : FilterConfigMap) (field : String)
    (h : String → String)
    (hq : optCaseEq (getVal c1 field) (getVal c2 field)) :
    multiFilter c1 field (fun v => h (jsToLower v)) =
      multiFilter c2 field (fun v => h (jsToLower v)) := by
  unfold multiFilter getTruthy
  cases h1 : getVal c1 field with
  | none =>
    cases h2 : getVal c2 field with
    | none => rfl
    | some q => rw [h1, h2] at hq; exact absurd hq (by simp [optCaseEq])
  | some p =>
    cases h2 : getVal c2 field with
    | none => rw [h1, h2] at hq; exact absurd hq (by simp [optCaseEq])
    | some q =>
      rw [h1, h2] at hq
      have hpq : jsToLower p = jsToLower q := hq
      dsimp only
      by_cases hp : p = ""
      · have hqe : q = "" := by
          rw [← jsToLower_empty_iff, ← hpq, hp]
          rfl
        rw [if_pos hp, if_pos hqe]
      · have hqe : ¬ q = "" := fun hq0 => hp (by
          rw [← jsToLower_empty_iff, hpq, hq0]
          rfl)
        rw [if_neg hp, if_neg hqe]
        dsimp only
        have hvals := splitTrim_lower_congr hpq
        by_cases hv : splitTrimValues p = []
        · have hv2 : splitTrimValues q = [] := by
            have : (splitTrimValues q).map jsToLower = [] := by
              rw [← hvals, hv]
              rfl
            exact List.map_eq_nil_iff.mp this
          rw [if_pos hv, if_pos hv2]
        · have hv2 : ¬ splitTrimValues q = [] := fun hq0 => hv (by
            have : (splitTrimValues p).map jsToLower = [] := by
              rw [hvals, hq0]
              rfl
            exact List.map_eq_nil_iff.mp this)
          simp only [if_neg hv, if_neg hv2]
          exact congrArg (fun l => some (joinSep " or " l))
            (map_lower_cb_congr h hvals)

/-- C10: the compiled expression is invariant under the letter case of
the `protocol` and `tcpFlags` values — the compiler lowercases both
before emitting them — so two configs agreeing on every other
recognized field and agreeing on those two fields up to case compile to
the same expression string. -/
theorem claim_C10_protocol_flags_case_insensitive
    (cfg1 cfg2 : FilterConfigMap)
    (hothers : ∀ k ∈ recognizedFields, k ≠ "protocol" → k ≠ "tcpFlags" →
        getVal cfg1 k = getVal cfg2 k)
    (hproto : optCaseEq (getVal cfg1 "protocol") (getVal cfg2 "protocol"))
    (hflags : optCaseEq (getVal cfg1 "tcpFlags") (getVal cfg2 "tcpFlags")) :
    buildWiresharkFilterFromConfig cfg1 = buildWiresharkFilterFromConfig cfg2 := by
  have hprotoEq : multiFilter cfg1 "protocol" (fun proto => jsToLower proto) =
      multiFilter cfg2 "protocol" (fun proto => jsToLower proto) :=
    multiFilter_lower_congr cfg1 cfg2 "protocol" (fun x => x) hproto
  have hflagsEq : multiFilter cfg1 "tcpFlags"
      (fun flag => "tcp.flags." ++ jsToLower flag ++ " == 1") =
      multiFilter cfg2 "tcpFlags"
      (fun flag => "tcp.flags." ++ jsToLower flag ++ " == 1") :=
    multiFilter_lower_congr cfg1 cfg2 "tcpFlags"
      (fun x => "tcp.flags." ++ x ++ " == 1") hflags
  unfold buildWiresharkFilterFromConfig
  rw [multiFilter_congr _ (hothers "ip" (by decide) (by decide) (by decide)),
    multiFilter_congr _ (hothers "port" (by decide) (by decide) (by decide)),
    hprotoEq,
    multiFilter_congr _ (hothers "sourceIp" (by decide) (by decide) (by decide)),
    multiFilter_congr _ (hothers "destinationIp" (by decide) (by decide) (by decide)),
    multiFilter_congr _ (hothers "sourcePort" (by decide) (by decide) (by decide)),
    multiFilter_congr _ (hothers "destinationPort" (by decide) (by decide) (by decide)),
    getTruthy_congr (hothers "packetSizeMin" (by decide) (by decide) (by decide)),
    getTruthy_congr (hothers "packetSizeMax" (by decide) (by decide) (by decide)),
    getTruthy_congr (hothers "timeRange" (by decide) (by decide) (by decide)),
    hflagsEq,
    multiFilter_congr _ (hothers "payloadContent" (by decide) (by decide) (by decide)),
    multiFilter_congr _ (hothers "macAddress" (by decide) (by decide) (by decide))]

/-- Witness for C10: upper-case and lower-case protocol and flag values
compile identically. -/
theorem claim_C10_witness :
    buildWiresharkFilterFromConfig
        [("protocol", "TCP,Udp"), ("tcpFlags", "SYN"), ("ip", "1.1.1.1")] =
      buildWiresharkFilterFromConfig
        [("protocol", "tcp,udp"), ("tcpFlags", "syn"), ("ip", "1.1.1.1")] :=
  claim_C10_protocol_flags_case_insensitive _ _ (by decide)
    (by decide : jsToLower "TCP,Udp" = jsToLower "tcp,udp")
    (by decide : jsToLower "SYN" = jsToLower "syn")
